import Mathlib

/-!
# APSheet DataFrame: a verification development

Shallow embedding of the sparse, rectangularly-bounded 2D data store
(`DataFrame`, from `src/DataFrame.js`) together with the coordinate
geometry (`Point`/`Frame`) it is built on.

The `DataFrame` methods are translated directly from the source file.
`Point.js` and `Frame.js` are dependencies of `DataFrame.js` that are not
part of the provided sources, so `Point`, `Frame` and their operations
(containment, area, row-major enumeration) are modelled from the
specification (sections 3, 4.1 and 4.2 of the spec document).

Modelling conventions:
* JavaScript `undefined` (the "absent" value) is `Option.none`; a stored
  value `v` is `Option.some v`.  Store entries hold plain values `V`;
  for the completeness scan, whose source compares with the *loose*
  `== undefined` (which a stored `null` also satisfies), stored values
  are instantiated at `JsVal`, which separates `null` from proper
  values.
* The JS store is an object keyed by the string `"x,y"`.  For integer
  coordinates that string encodes exactly the pair `(x, y)` (the key
  derivation `Location.keyString` is kept alongside), so the store is
  modelled as an association list keyed by the coordinate pair.
* A thrown JS string is an `Except.error`; methods that cannot throw for
  well-formed arguments are total.
* The change-notification callback is modelled observably: a `DataFrame`
  records whether a callback is registered (`hasCallback`), and each
  mutating method returns the list of invocations (`Note`s) it would have
  performed, in order.
* JS `Math.min`/`Math.max` over a spread argument list reduce with
  identities `+Infinity` / `-Infinity`; values are modelled by `JsNum`, so
  that `minFrame` on an empty store is represented faithfully.
-/

/-- Modelled from the spec: a `Point` is an immutable integer 2D
coordinate with fields `x` and `y` (spec section 3). -/
structure Point where
  x : Int
  y : Int
deriving DecidableEq, Repr

/-- A raw two-element coordinate pair `[x, y]`, the alias form of a
location accepted throughout the API. -/
abbrev Coord := Int × Int

/-- Modelled from the spec: a `Frame` is an axis-aligned,
inclusive-bounds rectangle given by `origin` and `corner`
(spec section 3).  Construction in the original code does not validate
`origin ≤ corner` (spec section 9), so no invariant is imposed here. -/
structure Frame where
  origin : Point
  corner : Point
deriving DecidableEq, Repr

namespace Frame

/-- Modelled from the spec: a Frame contains a Point iff the point's
coordinates fall within `[origin, corner]` on both axes
(spec section 3, "Containment"). -/
def containsPoint (f : Frame) (p : Point) : Bool :=
  decide (f.origin.x ≤ p.x) && decide (p.x ≤ f.corner.x) &&
  decide (f.origin.y ≤ p.y) && decide (p.y ≤ f.corner.y)

/-- Modelled from the spec: a raw two-element coordinate pair is accepted
as an alias for a Point in containment tests (spec section 3). -/
def containsCoord (f : Frame) (c : Coord) : Bool :=
  f.containsPoint ⟨c.1, c.2⟩

/-- Modelled from the spec: a Frame contains another Frame iff that
Frame's origin and corner are both contained (spec section 3). -/
def containsFrame (f : Frame) (g : Frame) : Bool :=
  f.containsPoint g.origin && f.containsPoint g.corner

/-- Modelled from the spec: `width = corner.x - origin.x + 1`
(spec section 3). -/
def width (f : Frame) : Int :=
  f.corner.x - f.origin.x + 1

/-- Modelled from the spec: `height = corner.y - origin.y + 1`
(spec section 3). -/
def height (f : Frame) : Int :=
  f.corner.y - f.origin.y + 1

/-- Modelled from the spec: `area = width * height` (spec section 3). -/
def area (f : Frame) : Int :=
  f.width * f.height

/-- Modelled from the spec: the ordered coordinate pairs of one row of a
Frame, columns in ascending x (spec section 4.2, enumeration order). -/
def rowCoords (f : Frame) (y : Int) : List Coord :=
  (List.range f.width.toNat).map (fun i : Nat => (f.origin.x + (i : Int), y))

/-- Modelled from the spec: `forEachCoordinateRow` visits the rows of a
Frame in ascending y order, each row being its ordered coordinate pairs
(spec section 4.2); modelled as the row-grouped list the visitor is fed. -/
def coordRows (f : Frame) : List (List Coord) :=
  (List.range f.height.toNat).map (fun j : Nat => f.rowCoords (f.origin.y + (j : Int)))

/-- Modelled from the spec: `points` is the full ordered sequence of
contained Points, row-major: rows ascending in y, columns ascending in x
within a row (spec section 4.2). -/
def points (f : Frame) : List Point :=
  f.coordRows.flatten.map (fun c => ⟨c.1, c.2⟩)

end Frame

/-- A well-formed location argument: either a `Point` or a raw
two-element coordinate pair, the two representations accepted by
`putAt`/`getAt` (`DataFrame.js` dispatches on `location.isPoint` /
`isCoordinate(location)`). -/
inductive Location where
  | pt (p : Point)
  | coord (x y : Int)
deriving DecidableEq, Repr

namespace Location

/-- The string key the source derives for a location: the Point branch
computes the template string of `x` and `y` joined by a comma
(`DataFrame.js` line 49), and the coordinate branch calls
`location.toString()`, which for a two-element JS array is its elements
joined by a comma (`DataFrame.js` line 53). -/
def keyString : Location → String
  | .pt p => toString p.x ++ "," ++ toString p.y
  | .coord x y => toString x ++ "," ++ toString y

/-- The coordinate pair a location's store key encodes.  The JS store is
keyed by `keyString`; for integer coordinates `keyString` encodes exactly
this pair, so the store is modelled as keyed by it. -/
def key : Location → Coord
  | .pt p => (p.x, p.y)
  | .coord x y => (x, y)

end Location

/-- `Frame.contains` applied to a location argument, as `getAt` and
`putAt` use it: either representation is bounds-tested as the point it
denotes. -/
def Frame.containsLocation (f : Frame) (l : Location) : Bool :=
  match l with
  | .pt p => f.containsPoint p
  | .coord x y => f.containsCoord (x, y)

/-- One observed invocation of the registered change callback: `putAt`
passes the `location` it was given, `loadFromArray` and `clear` pass a
`Frame`. -/
inductive Note where
  | loc (l : Location)
  | fr (f : Frame)
deriving DecidableEq, Repr

/-- Lookup in the store: the value at key `k`, `none` when no entry
exists (JS `this.store[key]`, which yields `undefined` for a missing
key). -/
def storeLookup {V : Type} : List (Coord × V) → Coord → Option V
  | [], _ => none
  | e :: rest, k => if e.1 = k then some e.2 else storeLookup rest k

/-- Deletion from the store (JS `delete this.store[key]`): removes the
entry for key `k`. -/
def storeErase {V : Type} : List (Coord × V) → Coord → List (Coord × V)
  | [], _ => []
  | e :: rest, k => if e.1 = k then storeErase rest k else e :: storeErase rest k

/-- Assignment in the store (JS `this.store[key] = value`): binds key `k`
to `v`, replacing any previous binding, so that the entry count counts
distinct keys as `Object.keys` does. -/
def storePut {V : Type} (s : List (Coord × V)) (k : Coord) (v : V) : List (Coord × V) :=
  (k, v) :: storeErase s k

/-- The DataFrame state: its bounds (a `Frame` — the source class extends
`Frame`, modelled as composition per spec section 9), the sparse store,
and whether a change callback is registered. -/
structure DataFrame (V : Type) where
  frame : Frame
  store : List (Coord × V)
  hasCallback : Bool
deriving DecidableEq, Repr

namespace DataFrame

variable {V : Type}

/-- `DataFrame.putAt(location, value, notify)` (`DataFrame.js` lines
44-68): derives the key from either representation of `location`; stores
`value`, except that `undefined` (`none`) deletes the entry instead; no
bounds check; when `notify` is set and a callback is registered, invokes
it once with `location`.  Returns the new state and the callback
invocations. -/
def putAt (df : DataFrame V) (location : Location) (value : Option V)
    (notify : Bool) : DataFrame V × List Note :=
  let key := location.key
  let store' :=
    match value with
    | none => storeErase df.store key
    | some v => storePut df.store key v
  let notes := if notify && df.hasCallback then [Note.loc location] else []
  ({ df with store := store' }, notes)

/-- `DataFrame.getAt(location)` (`DataFrame.js` lines 83-99): throws when
the location is not contained in the DataFrame's own Frame; otherwise
returns the stored value, `undefined` (`none`) when no entry exists. -/
def getAt (df : DataFrame V) (location : Location) : Except String (Option V) :=
  match location with
  | .coord x y =>
      if !(df.frame.containsCoord (x, y)) then
        .error "outside of DataFrame"
      else
        .ok (storeLookup df.store (x, y))
  | .pt p =>
      if !(df.frame.containsPoint p) then
        .error "outside of DataFrame"
      else
        .ok (storeLookup df.store (p.x, p.y))

/-- The inner loop of `loadFromArray` (`DataFrame.js` lines 131-141):
`row.forEach((value, x) => this.putAt([x + origin.x, y + origin.y],
value, false))`, with the running absolute x coordinate made explicit.
Returns the new state and the callback invocations of the `putAt`
calls. -/
def loadRow : DataFrame V → List (Option V) → Int → Int → DataFrame V × List Note
  | df, [], _, _ => (df, [])
  | df, v :: rest, x, y =>
      let r := df.putAt (.coord x y) v false
      let r2 := r.1.loadRow rest (x + 1) y
      (r2.1, r.2 ++ r2.2)

/-- The outer loop of `loadFromArray` (`DataFrame.js` lines 130-142):
`data.forEach((row, y) => ...)`, with the running absolute y coordinate
made explicit. -/
def loadRows : DataFrame V → List (List (Option V)) → Int → Int → DataFrame V × List Note
  | df, [], _, _ => (df, [])
  | df, row :: rest, x, y =>
      let r := df.loadRow row x y
      let r2 := r.1.loadRows rest x (y + 1)
      (r2.1, r.2 ++ r2.2)

end DataFrame

/-- The outcome of a mutating bulk call: the DataFrame state when the
call returned or threw, the callback invocations performed before that,
and the thrown message, if any. -/
structure LoadResult (V : Type) where
  df : DataFrame V
  notes : List Note
  err : Option String
deriving DecidableEq, Repr

namespace DataFrame

variable {V : Type}

/-- `DataFrame.loadFromArray(data, origin)` (`DataFrame.js` lines
115-146): throws if `origin` is not contained; reads `data[0].length`
(a TypeError when `data` is empty); computes the bounding
`comparisonFrame` of the incoming data from the first row's length and
throws if it is not contained; otherwise writes every value through the
non-notifying `putAt` and finally invokes the callback, if registered,
once with `comparisonFrame`. -/
def loadFromArray (df : DataFrame V) (data : List (List (Option V)))
    (origin : Coord) : LoadResult V :=
  if !(df.frame.containsCoord origin) then
    ⟨df, [], some "origin not contained in this DataFrame"⟩
  else
    match data with
    | [] => ⟨df, [], some "TypeError: cannot read length of undefined"⟩
    | row0 :: _ =>
        let originPt : Point := ⟨origin.1, origin.2⟩
        let rowMax : Int := (data.length : Int) - 1
        let colMax : Int := (row0.length : Int) - 1
        let corner : Point := ⟨colMax + originPt.x, rowMax + originPt.y⟩
        let comparisonFrame : Frame := ⟨originPt, corner⟩
        if !(df.frame.containsFrame comparisonFrame) then
          ⟨df, [], some "Incoming data runs outside bounds of current DataFrame"⟩
        else
          let w := df.loadRows data originPt.x originPt.y
          let endNotes := if w.1.hasCallback then [Note.fr comparisonFrame] else []
          ⟨w.1, w.2 ++ endNotes, none⟩

/-- `DataFrame.getDataArrayForFrame(aFrame)` (`DataFrame.js` lines
157-169): throws if `aFrame` is not contained; otherwise maps each
coordinate row of `aFrame` through `getAt`, propagating any `getAt`
throw. -/
def getDataArrayForFrame (df : DataFrame V) (aFrame : Frame) :
    Except String (List (List (Option V))) :=
  if !(df.frame.containsFrame aFrame) then
    .error "Frame is not contained within DataFrame!"
  else
    aFrame.coordRows.mapM (fun row => row.mapM (fun c => df.getAt (.coord c.1 c.2)))

end DataFrame

/-- A JavaScript value as storable in the DataFrame: either `null` or a
proper (non-null) value.  JS distinguishes `null` — a storable value,
with `null !== undefined`, so `putAt` stores it rather than deleting —
from `undefined`, the absent marker; but the *loose* comparison
`x == undefined` is true for `null` as well.  The completeness scan
below uses that loose comparison, so its stored values are modelled by
this type. -/
inductive JsVal (V : Type) where
  | null
  | val (v : V)
deriving DecidableEq, Repr

/-- JS loose equality `x == undefined` applied to a read-back value:
true for `undefined` (`none`, no entry) and for a stored `null`, false
for every other value. -/
def looseEqUndef {V : Type} : Option (JsVal V) → Bool
  | none => true
  | some .null => true
  | some (.val _) => false

namespace DataFrame

variable {V : Type}

/-- The scan of `hasCompleteDataForFrame` (`DataFrame.js` lines 269-277):
walks the points in order and returns `false` at the first whose `getAt`
satisfies the loose test `== undefined` (line 272) — true both when no
entry exists and when the stored entry is `null` — propagating any
`getAt` throw. -/
def hasCompleteLoop (df : DataFrame (JsVal V)) : List Point → Except String Bool
  | [] => .ok true
  | p :: rest =>
      match df.getAt (.pt p) with
      | .error e => .error e
      | .ok v => if looseEqUndef v then .ok false else df.hasCompleteLoop rest

/-- `DataFrame.hasCompleteDataForFrame(aFrame)` (`DataFrame.js` lines
265-278): throws if `aFrame` is not contained; otherwise scans
`aFrame.points` for a point whose read-back is loosely equal to
`undefined`. -/
def hasCompleteDataForFrame (df : DataFrame (JsVal V)) (aFrame : Frame) :
    Except String Bool :=
  if !(df.frame.containsFrame aFrame) then
    .error "Passed Frame is not contained within DataFrame!"
  else
    df.hasCompleteLoop aFrame.points

/-- `DataFrame.isFull` (`DataFrame.js` lines 211-213): true iff the area
equals the number of keys in the store. -/
def isFull (df : DataFrame V) : Bool :=
  df.frame.area == (df.store.length : Int)

end DataFrame

/-- A JavaScript number as produced by `Math.min`/`Math.max` over integer
inputs: an integer, or one of the infinities the empty reduction yields. -/
inductive JsNum where
  | posInf
  | negInf
  | num (n : Int)
deriving DecidableEq, Repr

/-- JS `Math.min` of two values, restricted to integers and infinities. -/
def jmin : JsNum → JsNum → JsNum
  | .posInf, b => b
  | a, .posInf => a
  | .negInf, _ => .negInf
  | _, .negInf => .negInf
  | .num a, .num b => .num (min a b)

/-- JS `Math.max` of two values, restricted to integers and infinities. -/
def jmax : JsNum → JsNum → JsNum
  | .negInf, b => b
  | a, .negInf => a
  | .posInf, _ => .posInf
  | _, .posInf => .posInf
  | .num a, .num b => .num (max a b)

/-- JS `Math.min(...values)`: the reduction of the argument list by
`Math.min` from the identity `+Infinity`; in particular `Math.min()` on an
empty argument list is `+Infinity`. -/
def jsMathMin (l : List Int) : JsNum :=
  l.foldl (fun acc n => jmin acc (.num n)) .posInf

/-- JS `Math.max(...values)`: the reduction of the argument list by
`Math.max` from the identity `-Infinity`; in particular `Math.max()` on an
empty argument list is `-Infinity`. -/
def jsMathMax (l : List Int) : JsNum :=
  l.foldl (fun acc n => jmax acc (.num n)) .negInf

/-- The Frame value `minFrame` builds: its origin and corner components
are JS numbers, which on an empty store are infinities rather than
integer coordinates. -/
structure JsFrame where
  origin : JsNum × JsNum
  corner : JsNum × JsNum
deriving DecidableEq, Repr

namespace DataFrame

variable {V : Type}

/-- `DataFrame.minFrame` (`DataFrame.js` lines 220-237): parses every
store key back into its coordinate pair (for the integer-coordinate keys
the store holds, `split(",")` + `parseInt` recovers exactly the pair the
key encodes), then builds the Frame of the componentwise `Math.min` and
`Math.max` of those pairs — including the infinities the empty reductions
produce when the store is empty. -/
def minFrame (df : DataFrame V) : JsFrame :=
  let keyCoords := df.store.map (fun e => e.1)
  let xValues := keyCoords.map (fun c => c.1)
  let yValues := keyCoords.map (fun c => c.2)
  ⟨(jsMathMin xValues, jsMathMin yValues), (jsMathMax xValues, jsMathMax yValues)⟩

/-- `DataFrame.minFrameFromOrigin` (`DataFrame.js` lines 245-251): the
Frame whose origin is the DataFrame's own declared origin and whose
corner is `minFrame`'s corner. -/
def minFrameFromOrigin (df : DataFrame V) : JsFrame :=
  ⟨(.num df.frame.origin.x, .num df.frame.origin.y), df.minFrame.corner⟩

end DataFrame

/-! ## Basic lemmas about the geometry -/

namespace Frame

theorem containsPoint_iff (f : Frame) (p : Point) :
    f.containsPoint p = true ↔
      f.origin.x ≤ p.x ∧ p.x ≤ f.corner.x ∧ f.origin.y ≤ p.y ∧ p.y ≤ f.corner.y := by
  simp [containsPoint, Bool.and_eq_true, decide_eq_true_eq, and_assoc]

theorem containsFrame_iff (f g : Frame) :
    f.containsFrame g = true ↔
      f.containsPoint g.origin = true ∧ f.containsPoint g.corner = true := by
  simp [containsFrame, Bool.and_eq_true]

/-- Containment of frames is transitive down to points: a point of a
contained frame is a point of the container. -/
theorem containsPoint_of_containsFrame {f g : Frame} {p : Point}
    (hfg : f.containsFrame g = true) (hgp : g.containsPoint p = true) :
    f.containsPoint p = true := by
  rw [containsFrame_iff] at hfg
  obtain ⟨h1, h2⟩ := hfg
  rw [containsPoint_iff] at h1 h2 hgp ⊢
  omega

/-- Every coordinate produced by a frame's row enumeration is contained
in the frame. -/
theorem containsCoord_of_mem_coordRows {f : Frame} {row : List Coord} {c : Coord}
    (hrow : row ∈ f.coordRows) (hc : c ∈ row) : f.containsCoord c = true := by
  rw [coordRows] at hrow
  obtain ⟨j, hj, rfl⟩ := List.mem_map.mp hrow
  rw [List.mem_range] at hj
  rw [rowCoords] at hc
  obtain ⟨i, hi, rfl⟩ := List.mem_map.mp hc
  rw [List.mem_range] at hi
  simp only [containsCoord, containsPoint_iff]
  unfold width at hi
  unfold height at hj
  omega

/-- Every point produced by a frame's point enumeration is contained in
the frame. -/
theorem containsPoint_of_mem_points {f : Frame} {p : Point}
    (hp : p ∈ f.points) : f.containsPoint p = true := by
  simp only [points, List.mem_map, List.mem_flatten] at hp
  obtain ⟨c, ⟨row, hrow, hc⟩, rfl⟩ := hp
  exact containsCoord_of_mem_coordRows hrow hc

end Frame

/-! ## Basic lemmas about the store -/

theorem storeLookup_erase {V : Type} (s : List (Coord × V)) (k k' : Coord) :
    storeLookup (storeErase s k) k' = if k' = k then none else storeLookup s k' := by
  induction s with
  | nil => simp [storeErase, storeLookup]
  | cons e rest ih =>
      by_cases h1 : e.1 = k <;> by_cases h2 : e.1 = k' <;> by_cases h3 : k' = k <;>
        simp_all [storeErase, storeLookup]

theorem storeLookup_put {V : Type} (s : List (Coord × V)) (k k' : Coord) (v : V) :
    storeLookup (storePut s k v) k' = if k' = k then some v else storeLookup s k' := by
  by_cases h : k' = k
  · simp [storePut, storeLookup, h]
  · have h' : ¬k = k' := fun hh => h hh.symm
    simp [storePut, storeLookup, storeLookup_erase, h, h']

/-! ## Basic lemmas about putAt -/

namespace DataFrame

variable {V : Type}

@[simp]
theorem putAt_frame (df : DataFrame V) (loc : Location) (v : Option V) (b : Bool) :
    (df.putAt loc v b).1.frame = df.frame := by
  cases v <;> rfl

@[simp]
theorem putAt_hasCallback (df : DataFrame V) (loc : Location) (v : Option V) (b : Bool) :
    (df.putAt loc v b).1.hasCallback = df.hasCallback := by
  cases v <;> rfl

/-- The store after `putAt`, seen through lookup: the written key is
bound to exactly the written value (deleted when the value is absent),
other keys are untouched.  No bounds check appears: the law holds for
every location. -/
theorem storeLookup_putAt (df : DataFrame V) (loc : Location) (v : Option V)
    (b : Bool) (k : Coord) :
    storeLookup ((df.putAt loc v b).1.store) k =
      if k = loc.key then v else storeLookup df.store k := by
  cases v with
  | none => simpa [putAt] using storeLookup_erase df.store loc.key k
  | some w => simpa [putAt] using storeLookup_put df.store loc.key k w

/-- `getAt` throws exactly on locations outside the bounds. -/
theorem getAt_error_iff (df : DataFrame V) (loc : Location) :
    (∃ e, df.getAt loc = .error e) ↔ df.frame.containsLocation loc = false := by
  cases loc with
  | pt p =>
      cases h : df.frame.containsPoint p <;>
        simp [getAt, Frame.containsLocation, h]
  | coord x y =>
      cases h : df.frame.containsCoord (x, y) <;>
        simp [getAt, Frame.containsLocation, h]

/-- `getAt` on an in-bounds location returns the store lookup at its
key. -/
theorem getAt_eq_lookup (df : DataFrame V) (loc : Location)
    (h : df.frame.containsLocation loc = true) :
    df.getAt loc = .ok (storeLookup df.store loc.key) := by
  cases loc with
  | pt p => simp_all [getAt, Frame.containsLocation, Location.key]
  | coord x y => simp_all [getAt, Frame.containsLocation, Location.key]

end DataFrame

/-! ## Concrete instances used by the witnesses -/

/-- A 6x6 DataFrame over Nat values with an empty store and a registered
callback. -/
def sampleDF : DataFrame Nat :=
  ⟨⟨⟨0, 0⟩, ⟨5, 5⟩⟩, [], true⟩

/-- A 2x1 DataFrame (area 2) with an empty store and no callback. -/
def smallDF : DataFrame Nat :=
  ⟨⟨⟨0, 0⟩, ⟨1, 0⟩⟩, [], false⟩

/-! ## The claims -/

/-- C3: bounds checking is asymmetric between write and read.  For every
well-formed location, `putAt` binds the location's key to the given value
(deleting it when the value is absent) and leaves every other key
untouched, with no bounds check and no possibility of raising (`putAt` is
total in the embedding); `getAt` on a well-formed location raises an
out-of-bounds error if and only if the location is not contained in the
DataFrame's bounds. -/
theorem putAt_unchecked_getAt_checked {V : Type} (df : DataFrame V)
    (loc : Location) (v : Option V) (notify : Bool) :
    storeLookup ((df.putAt loc v notify).1.store) loc.key = v ∧
    (∀ k, k ≠ loc.key →
      storeLookup ((df.putAt loc v notify).1.store) k = storeLookup df.store k) ∧
    ((∃ e, df.getAt loc = .error e) ↔ df.frame.containsLocation loc = false) := by
  refine ⟨?_, ?_, df.getAt_error_iff loc⟩
  · rw [DataFrame.storeLookup_putAt]
    simp
  · intro k hk
    rw [DataFrame.storeLookup_putAt, if_neg hk]

theorem putAt_unchecked_getAt_checked_witness :
    storeLookup ((sampleDF.putAt (.pt ⟨9, 9⟩) (some 7) true).1.store)
        ((Location.pt ⟨9, 9⟩).key) = some 7 ∧
    storeLookup ((sampleDF.putAt (.pt ⟨9, 9⟩) (some 7) true).1.store) (0, 0) =
      storeLookup sampleDF.store (0, 0) ∧
    sampleDF.frame.containsLocation (.pt ⟨9, 9⟩) = false ∧
    sampleDF.getAt (.pt ⟨9, 9⟩) = .error "outside of DataFrame" :=
  ⟨(putAt_unchecked_getAt_checked sampleDF (.pt ⟨9, 9⟩) (some 7) true).1,
   (putAt_unchecked_getAt_checked sampleDF (.pt ⟨9, 9⟩) (some 7) true).2.1 (0, 0)
     (by decide),
   by decide, rfl⟩

/-- C4: read-back of the last write.  For every in-bounds Point `p`,
after `putAt(p, v)` with `v` present, `getAt(p)` returns `v`; and after
`putAt(p, absent)` on any state (so any prior entry at `p` is removed),
`getAt(p)` returns the absent value without throwing. -/
theorem getAt_putAt_readback {V : Type} (df : DataFrame V) (p : Point) (v : V)
    (h : df.frame.containsPoint p = true) :
    (df.putAt (.pt p) (some v) true).1.getAt (.pt p) = .ok (some v) ∧
    (df.putAt (.pt p) none true).1.getAt (.pt p) = .ok none := by
  have hf : ∀ w : Option V,
      (df.putAt (.pt p) w true).1.frame.containsLocation (.pt p) = true := by
    intro w
    simpa [Frame.containsLocation] using h
  constructor
  · rw [DataFrame.getAt_eq_lookup _ _ (hf (some v)), DataFrame.storeLookup_putAt]
    simp
  · rw [DataFrame.getAt_eq_lookup _ _ (hf none), DataFrame.storeLookup_putAt]
    simp

theorem getAt_putAt_readback_witness :
    (sampleDF.putAt (.pt ⟨2, 3⟩) (some 7) true).1.getAt (.pt ⟨2, 3⟩) = .ok (some 7) ∧
    (sampleDF.putAt (.pt ⟨2, 3⟩) none true).1.getAt (.pt ⟨2, 3⟩) = .ok none :=
  getAt_putAt_readback sampleDF ⟨2, 3⟩ 7 (by decide)

/-- C9: `isFull` is a pure cardinality test that does not check that
stored keys lie in bounds.  On the 2x1 DataFrame `smallDF`, writing
(0,0) and then the out-of-bounds (5,5) makes the entry count reach the
area, so `isFull` reports true even though the in-bounds point (1,0) has
no entry. -/
theorem isFull_cardinality_only :
    smallDF.frame.containsPoint ⟨5, 5⟩ = false ∧
    (((smallDF.putAt (.pt ⟨0, 0⟩) (some 1) true).1.putAt
        (.pt ⟨5, 5⟩) (some 2) true).1).isFull = true ∧
    smallDF.frame.containsPoint ⟨1, 0⟩ = true ∧
    (((smallDF.putAt (.pt ⟨0, 0⟩) (some 1) true).1.putAt
        (.pt ⟨5, 5⟩) (some 2) true).1).getAt (.pt ⟨1, 0⟩) = .ok none := by
  refine ⟨by decide, by decide, by decide, rfl⟩

/-- C10: the Point and coordinate-pair representations of a location are
interchangeable: they derive the same string key and the same store key,
so for every in-bounds (x, y) and present value v, a `putAt` through
either representation is read back by a `getAt` through the other. -/
theorem point_coord_interchangeable {V : Type} (df : DataFrame V) (x y : Int) (v : V)
    (h : df.frame.containsCoord (x, y) = true) :
    (Location.pt ⟨x, y⟩).keyString = (Location.coord x y).keyString ∧
    (Location.pt ⟨x, y⟩).key = (Location.coord x y).key ∧
    (df.putAt (.pt ⟨x, y⟩) (some v) true).1.getAt (.coord x y) = .ok (some v) ∧
    (df.putAt (.coord x y) (some v) true).1.getAt (.pt ⟨x, y⟩) = .ok (some v) := by
  have hc : ∀ (l : Location) (w : Option V),
      (df.putAt l w true).1.frame.containsCoord (x, y) = true := by
    intro l w
    simpa using h
  refine ⟨rfl, rfl, ?_, ?_⟩
  · have h1 : (df.putAt (.pt ⟨x, y⟩) (some v) true).1.frame.containsLocation
        (.coord x y) = true := hc _ _
    rw [DataFrame.getAt_eq_lookup _ _ h1, DataFrame.storeLookup_putAt]
    simp [Location.key]
  · have h2 : (df.putAt (.coord x y) (some v) true).1.frame.containsLocation
        (.pt ⟨x, y⟩) = true := by
      have := hc (.coord x y) (some v)
      simpa [Frame.containsLocation, Frame.containsCoord] using this
    rw [DataFrame.getAt_eq_lookup _ _ h2, DataFrame.storeLookup_putAt]
    simp [Location.key]

theorem point_coord_interchangeable_witness :
    (Location.pt ⟨4, 1⟩).keyString = (Location.coord 4 1).keyString ∧
    (Location.pt ⟨4, 1⟩).key = (Location.coord 4 1).key ∧
    (sampleDF.putAt (.pt ⟨4, 1⟩) (some 9) true).1.getAt (.coord 4 1) = .ok (some 9) ∧
    (sampleDF.putAt (.coord 4 1) (some 9) true).1.getAt (.pt ⟨4, 1⟩) = .ok (some 9) :=
  point_coord_interchangeable sampleDF 4 1 9 (by decide)

/-! ## The completeness scan -/

/-- On a list of points that are all in bounds, the completeness scan
returns whether every point's read-back fails the loose
`== undefined` test. -/
theorem DataFrame.hasCompleteLoop_eq {V : Type} (df : DataFrame (JsVal V))
    (ps : List Point) (h : ∀ p ∈ ps, df.frame.containsPoint p = true) :
    df.hasCompleteLoop ps =
      .ok (ps.all (fun p => !looseEqUndef (storeLookup df.store (p.x, p.y)))) := by
  induction ps with
  | nil => rfl
  | cons p rest ih =>
      have hloc : df.frame.containsLocation (.pt p) = true :=
        h p (List.mem_cons_self p rest)
      unfold hasCompleteLoop
      rw [DataFrame.getAt_eq_lookup _ _ hloc]
      rw [show (Location.pt p).key = (p.x, p.y) from rfl]
      cases hv : looseEqUndef (storeLookup df.store (p.x, p.y)) with
      | true => simp [hv]
      | false =>
          rw [ih (fun q hq => h q (List.mem_cons_of_mem p hq))]
          simp [hv]

/-- C5 counterexample: a stored JS `null` is a present, non-absent entry
(`putAt` keeps it, since `null !== undefined`), yet line 272's loose
`getAt(p) == undefined` treats it as missing: on a DataFrame whose single
in-bounds point stores `null`, every point of the frame has a present
entry and `hasCompleteDataForFrame` still returns false — refuting
"returns true iff every Point has a present (non-absent) stored
entry". -/
theorem hasCompleteDataForFrame_null_counterexample :
    (DataFrame.mk ⟨⟨0, 0⟩, ⟨0, 0⟩⟩ [((0, 0), JsVal.null (V := Nat))] false).frame.containsFrame
      ⟨⟨0, 0⟩, ⟨0, 0⟩⟩ = true ∧
    (∀ p ∈ (Frame.mk ⟨0, 0⟩ ⟨0, 0⟩).points,
      (storeLookup [((0, 0), JsVal.null (V := Nat))] (p.x, p.y)).isSome = true) ∧
    ((DataFrame.mk ⟨⟨0, 0⟩, ⟨0, 0⟩⟩ [((0, 0), JsVal.null (V := Nat))] false).putAt
      (.pt ⟨0, 0⟩) (some JsVal.null) true).1.store = [((0, 0), JsVal.null)] ∧
    (DataFrame.mk ⟨⟨0, 0⟩, ⟨0, 0⟩⟩ [((0, 0), JsVal.null (V := Nat))] false).hasCompleteDataForFrame
      ⟨⟨0, 0⟩, ⟨0, 0⟩⟩ = .ok false := by
  refine ⟨by decide, by decide, by decide, rfl⟩

/-- C5 as amended: `hasCompleteDataForFrame(f)` throws the not-contained
error when `f` is not contained in the DataFrame's bounds; otherwise it
returns true iff every Point of `f` has a stored entry that is neither
absent nor `null` (the scan uses JS loose equality with `undefined`,
which a stored `null` also satisfies), and false iff some Point of `f`
is unset or stores `null`. -/
theorem hasCompleteDataForFrame_loose {V : Type} (df : DataFrame (JsVal V))
    (f : Frame) :
    (df.frame.containsFrame f = false →
      df.hasCompleteDataForFrame f =
        .error "Passed Frame is not contained within DataFrame!") ∧
    (df.frame.containsFrame f = true →
      ((df.hasCompleteDataForFrame f = .ok true ↔
          ∀ p ∈ f.points, looseEqUndef (storeLookup df.store (p.x, p.y)) = false) ∧
       (df.hasCompleteDataForFrame f = .ok false ↔
          ∃ p ∈ f.points, looseEqUndef (storeLookup df.store (p.x, p.y)) = true))) := by
  constructor
  · intro h
    simp [DataFrame.hasCompleteDataForFrame, h]
  · intro h
    have hall : ∀ p ∈ f.points, df.frame.containsPoint p = true := fun p hp =>
      Frame.containsPoint_of_containsFrame h (Frame.containsPoint_of_mem_points hp)
    have hloop := df.hasCompleteLoop_eq f.points hall
    simp only [DataFrame.hasCompleteDataForFrame, h, Bool.not_true, Bool.false_eq_true,
      if_false, hloop]
    constructor
    · simp [List.all_eq_true]
    · simp [List.all_eq_false]

/-- The DataFrame of the spec's completeness example: bounds (0,0)-(2,2)
with entries at (0,0) and (1,0) only. -/
def completeness3x3DF : DataFrame Nat :=
  ⟨⟨⟨0, 0⟩, ⟨2, 2⟩⟩, [((0, 0), 1), ((1, 0), 2)], false⟩

/-- The completeness example over JS values: bounds (0,0)-(2,2), proper
entries at (0,0) and (1,0), a stored `null` at (2,0). -/
def completenessJsDF : DataFrame (JsVal Nat) :=
  ⟨⟨⟨0, 0⟩, ⟨2, 2⟩⟩, [((0, 0), .val 1), ((1, 0), .val 2), ((2, 0), .null)], false⟩

theorem hasCompleteDataForFrame_loose_witness :
    completenessJsDF.hasCompleteDataForFrame ⟨⟨0, 0⟩, ⟨1, 0⟩⟩ = .ok true ∧
    completenessJsDF.hasCompleteDataForFrame ⟨⟨0, 0⟩, ⟨2, 0⟩⟩ = .ok false ∧
    completenessJsDF.hasCompleteDataForFrame ⟨⟨0, 0⟩, ⟨2, 2⟩⟩ = .ok false ∧
    completenessJsDF.hasCompleteDataForFrame ⟨⟨0, 0⟩, ⟨9, 9⟩⟩ =
      .error "Passed Frame is not contained within DataFrame!" :=
  ⟨(((hasCompleteDataForFrame_loose completenessJsDF ⟨⟨0, 0⟩, ⟨1, 0⟩⟩).2
      (by decide)).1).mpr (by decide),
   (((hasCompleteDataForFrame_loose completenessJsDF ⟨⟨0, 0⟩, ⟨2, 0⟩⟩).2
      (by decide)).2).mpr (by decide),
   (((hasCompleteDataForFrame_loose completenessJsDF ⟨⟨0, 0⟩, ⟨2, 2⟩⟩).2
      (by decide)).2).mpr (by decide),
   (hasCompleteDataForFrame_loose completenessJsDF ⟨⟨0, 0⟩, ⟨9, 9⟩⟩).1 (by decide)⟩

/-! ## Reductions of the JS min and max -/

theorem foldl_min_le_init (t : List Int) (n : Int) : t.foldl min n ≤ n := by
  induction t generalizing n with
  | nil => exact le_refl n
  | cons a t ih => exact le_trans (ih (min n a)) (min_le_left n a)

theorem foldl_min_mem (t : List Int) (n : Int) :
    t.foldl min n = n ∨ t.foldl min n ∈ t := by
  induction t generalizing n with
  | nil => exact Or.inl rfl
  | cons a t ih =>
      rcases ih (min n a) with h | h
      · rcases min_cases n a with ⟨h2, _⟩ | ⟨h2, _⟩
        · exact Or.inl (by rw [List.foldl_cons, h, h2])
        · exact Or.inr (by rw [List.foldl_cons, h, h2]; exact List.mem_cons_self a t)
      · exact Or.inr (List.mem_cons_of_mem a h)

theorem foldl_min_le_mem (t : List Int) (n : Int) : ∀ k ∈ t, t.foldl min n ≤ k := by
  induction t generalizing n with
  | nil => intro k hk; cases hk
  | cons a t ih =>
      intro k hk
      rcases List.mem_cons.mp hk with rfl | hk
      · exact le_trans (foldl_min_le_init t (min n k)) (min_le_right n k)
      · exact ih (min n a) k hk

theorem foldl_max_init_le (t : List Int) (n : Int) : n ≤ t.foldl max n := by
  induction t generalizing n with
  | nil => exact le_refl n
  | cons a t ih => exact le_trans (le_max_left n a) (ih (max n a))

theorem foldl_max_mem (t : List Int) (n : Int) :
    t.foldl max n = n ∨ t.foldl max n ∈ t := by
  induction t generalizing n with
  | nil => exact Or.inl rfl
  | cons a t ih =>
      rcases ih (max n a) with h | h
      · rcases max_cases n a with ⟨h2, _⟩ | ⟨h2, _⟩
        · exact Or.inl (by rw [List.foldl_cons, h, h2])
        · exact Or.inr (by rw [List.foldl_cons, h, h2]; exact List.mem_cons_self a t)
      · exact Or.inr (List.mem_cons_of_mem a h)

theorem foldl_max_mem_le (t : List Int) (n : Int) : ∀ k ∈ t, k ≤ t.foldl max n := by
  induction t generalizing n with
  | nil => intro k hk; cases hk
  | cons a t ih =>
      intro k hk
      rcases List.mem_cons.mp hk with rfl | hk
      · exact le_trans (le_max_right n k) (foldl_max_init_le t (max n k))
      · exact ih (max n a) k hk

theorem jsMathMin_cons (n : Int) (t : List Int) :
    jsMathMin (n :: t) = .num (t.foldl min n) := by
  show (t.foldl (fun acc k => jmin acc (.num k)) (jmin .posInf (.num n))) =
    .num (t.foldl min n)
  rw [show jmin .posInf (.num n) = .num n from rfl]
  induction t generalizing n with
  | nil => rfl
  | cons a t ih => exact ih (min n a)

theorem jsMathMax_cons (n : Int) (t : List Int) :
    jsMathMax (n :: t) = .num (t.foldl max n) := by
  show (t.foldl (fun acc k => jmax acc (.num k)) (jmax .negInf (.num n))) =
    .num (t.foldl max n)
  rw [show jmax .negInf (.num n) = .num n from rfl]
  induction t generalizing n with
  | nil => rfl
  | cons a t ih => exact ih (max n a)

/-- `Math.min` over a non-empty spread evaluates to the member that is a
lower bound of all members. -/
theorem jsMathMin_eq (l : List Int) (m : Int) (hlb : ∀ n ∈ l, m ≤ n)
    (hmem : m ∈ l) : jsMathMin l = .num m := by
  cases l with
  | nil => cases hmem
  | cons n t =>
      rw [jsMathMin_cons]
      congr 1
      refine le_antisymm ?_ ?_
      · rcases List.mem_cons.mp hmem with rfl | hm
        · exact foldl_min_le_init t m
        · exact foldl_min_le_mem t n m hm
      · rcases foldl_min_mem t n with h | h
        · rw [h]; exact hlb n (List.mem_cons_self n t)
        · exact hlb _ (List.mem_cons_of_mem n h)

/-- `Math.max` over a non-empty spread evaluates to the member that is an
upper bound of all members. -/
theorem jsMathMax_eq (l : List Int) (m : Int) (hub : ∀ n ∈ l, n ≤ m)
    (hmem : m ∈ l) : jsMathMax l = .num m := by
  cases l with
  | nil => cases hmem
  | cons n t =>
      rw [jsMathMax_cons]
      congr 1
      refine le_antisymm ?_ ?_
      · rcases foldl_max_mem t n with h | h
        · rw [h]; exact hub n (List.mem_cons_self n t)
        · exact hub _ (List.mem_cons_of_mem n h)
      · rcases List.mem_cons.mp hmem with rfl | hm
        · exact foldl_max_init_le t m
        · exact foldl_max_mem_le t n m hm

/-- C6: for a non-empty store, `minFrame` is the tightest Frame enclosing
all present keys — its origin is the componentwise minimum of the keys'
x and y (characterized as the member that bounds all members below) and
its corner the componentwise maximum — and `minFrameFromOrigin` keeps
that corner but substitutes the DataFrame's own declared origin. -/
theorem minFrame_tightest {V : Type} (df : DataFrame V) (mx my Mx My : Int)
    (hmx : ∀ e ∈ df.store, mx ≤ e.1.1) (hmx' : ∃ e ∈ df.store, e.1.1 = mx)
    (hmy : ∀ e ∈ df.store, my ≤ e.1.2) (hmy' : ∃ e ∈ df.store, e.1.2 = my)
    (hMx : ∀ e ∈ df.store, e.1.1 ≤ Mx) (hMx' : ∃ e ∈ df.store, e.1.1 = Mx)
    (hMy : ∀ e ∈ df.store, e.1.2 ≤ My) (hMy' : ∃ e ∈ df.store, e.1.2 = My) :
    df.minFrame = ⟨(.num mx, .num my), (.num Mx, .num My)⟩ ∧
    df.minFrameFromOrigin =
      ⟨(.num df.frame.origin.x, .num df.frame.origin.y), (.num Mx, .num My)⟩ := by
  have hxs : (df.store.map (fun e => e.1)).map (fun c => c.1) =
      df.store.map (fun e => e.1.1) := by simp
  have hys : (df.store.map (fun e => e.1)).map (fun c => c.2) =
      df.store.map (fun e => e.1.2) := by simp
  have memx : ∀ m : Int, (∃ e ∈ df.store, e.1.1 = m) →
      m ∈ df.store.map (fun e => e.1.1) := by
    intro m ⟨e, he, hm⟩
    exact List.mem_map.mpr ⟨e, he, hm⟩
  have memy : ∀ m : Int, (∃ e ∈ df.store, e.1.2 = m) →
      m ∈ df.store.map (fun e => e.1.2) := by
    intro m ⟨e, he, hm⟩
    exact List.mem_map.mpr ⟨e, he, hm⟩
  have bndx : ∀ m : Int, (∀ e ∈ df.store, m ≤ e.1.1) →
      ∀ n ∈ df.store.map (fun e => e.1.1), m ≤ n := by
    intro m hm n hn
    obtain ⟨e, he, rfl⟩ := List.mem_map.mp hn
    exact hm e he
  have bndx' : ∀ m : Int, (∀ e ∈ df.store, e.1.1 ≤ m) →
      ∀ n ∈ df.store.map (fun e => e.1.1), n ≤ m := by
    intro m hm n hn
    obtain ⟨e, he, rfl⟩ := List.mem_map.mp hn
    exact hm e he
  have bndy : ∀ m : Int, (∀ e ∈ df.store, m ≤ e.1.2) →
      ∀ n ∈ df.store.map (fun e => e.1.2), m ≤ n := by
    intro m hm n hn
    obtain ⟨e, he, rfl⟩ := List.mem_map.mp hn
    exact hm e he
  have bndy' : ∀ m : Int, (∀ e ∈ df.store, e.1.2 ≤ m) →
      ∀ n ∈ df.store.map (fun e => e.1.2), n ≤ m := by
    intro m hm n hn
    obtain ⟨e, he, rfl⟩ := List.mem_map.mp hn
    exact hm e he
  have h1 : df.minFrame = ⟨(.num mx, .num my), (.num Mx, .num My)⟩ := by
    simp only [DataFrame.minFrame, hxs, hys]
    rw [jsMathMin_eq _ mx (bndx mx hmx) (memx mx hmx'),
        jsMathMin_eq _ my (bndy my hmy) (memy my hmy'),
        jsMathMax_eq _ Mx (bndx' Mx hMx) (memx Mx hMx'),
        jsMathMax_eq _ My (bndy' My hMy) (memy My hMy')]
  refine ⟨h1, ?_⟩
  rw [DataFrame.minFrameFromOrigin, h1]

/-- The DataFrame of the spec's minFrame example: declared origin (0,0),
entries exactly at (2,3) and (5,1). -/
def minFrameExampleDF : DataFrame Nat :=
  ⟨⟨⟨0, 0⟩, ⟨9, 9⟩⟩, [((2, 3), 1), ((5, 1), 2)], false⟩

theorem minFrame_tightest_witness :
    minFrameExampleDF.minFrame = ⟨(.num 2, .num 1), (.num 5, .num 3)⟩ ∧
    minFrameExampleDF.minFrameFromOrigin =
      ⟨(.num 0, .num 0), (.num 5, .num 3)⟩ :=
  minFrame_tightest minFrameExampleDF 2 1 5 3
    (by decide) (by decide) (by decide) (by decide)
    (by decide) (by decide) (by decide) (by decide)

/-- A DataFrame with an empty store. -/
def emptyStoreDF : DataFrame Nat :=
  ⟨⟨⟨0, 0⟩, ⟨4, 4⟩⟩, [], true⟩

/-- C7 counterexample: on an empty store `minFrame` neither fails nor
returns a canonical empty Frame — it silently propagates what the
underlying min/max primitives produce on empty input, namely origin
(+Infinity, +Infinity) and corner (-Infinity, -Infinity), which is not an
integer-coordinate Frame at all. -/
theorem minFrame_empty_counterexample :
    emptyStoreDF.store = [] ∧
    emptyStoreDF.minFrame =
      ⟨(JsNum.posInf, JsNum.posInf), (JsNum.negInf, JsNum.negInf)⟩ ∧
    emptyStoreDF.minFrame =
      ⟨(jsMathMin [], jsMathMin []), (jsMathMax [], jsMathMax [])⟩ ∧
    (∀ n : Int, emptyStoreDF.minFrame.origin.1 ≠ JsNum.num n) := by
  refine ⟨rfl, by decide, by decide, ?_⟩
  intro n hn
  simp [emptyStoreDF, DataFrame.minFrame, jsMathMin] at hn

/-- C7 as amended: when the store has no entries, `minFrame` does not
fail and does not return a canonical empty Frame; it silently propagates
the min/max primitive's empty-input results, returning the Frame with
origin (+Infinity, +Infinity) and corner (-Infinity, -Infinity). -/
theorem minFrame_empty_propagates {V : Type} (df : DataFrame V)
    (h : df.store = []) :
    df.minFrame =
      ⟨(JsNum.posInf, JsNum.posInf), (JsNum.negInf, JsNum.negInf)⟩ := by
  simp [DataFrame.minFrame, h, jsMathMin, jsMathMax]

theorem minFrame_empty_propagates_witness :
    emptyStoreDF.minFrame =
      ⟨(JsNum.posInf, JsNum.posInf), (JsNum.negInf, JsNum.negInf)⟩ :=
  minFrame_empty_propagates emptyStoreDF rfl

/-! ## The write loops of loadFromArray -/

namespace DataFrame

variable {V : Type}

@[simp]
theorem loadRow_frame (df : DataFrame V) (row : List (Option V)) (x y : Int) :
    (df.loadRow row x y).1.frame = df.frame := by
  induction row generalizing df x with
  | nil => rfl
  | cons v rest ih => simp [loadRow, ih]

@[simp]
theorem loadRow_hasCallback (df : DataFrame V) (row : List (Option V)) (x y : Int) :
    (df.loadRow row x y).1.hasCallback = df.hasCallback := by
  induction row generalizing df x with
  | nil => rfl
  | cons v rest ih => simp [loadRow, ih]

/-- The inner write loop never notifies: every cell goes through the
non-notifying form of `putAt`. -/
@[simp]
theorem loadRow_notes (df : DataFrame V) (row : List (Option V)) (x y : Int) :
    (df.loadRow row x y).2 = [] := by
  induction row generalizing df x with
  | nil => rfl
  | cons v rest ih => simp [loadRow, ih, putAt]

@[simp]
theorem loadRows_frame (df : DataFrame V) (data : List (List (Option V))) (x y : Int) :
    (df.loadRows data x y).1.frame = df.frame := by
  induction data generalizing df y with
  | nil => rfl
  | cons row rest ih => simp [loadRows, ih]

@[simp]
theorem loadRows_hasCallback (df : DataFrame V) (data : List (List (Option V)))
    (x y : Int) :
    (df.loadRows data x y).1.hasCallback = df.hasCallback := by
  induction data generalizing df y with
  | nil => rfl
  | cons row rest ih => simp [loadRows, ih]

/-- The outer write loop never notifies either. -/
@[simp]
theorem loadRows_notes (df : DataFrame V) (data : List (List (Option V))) (x y : Int) :
    (df.loadRows data x y).2 = [] := by
  induction data generalizing df y with
  | nil => rfl
  | cons row rest ih => simp [loadRows, ih]

/-- Every branch of `loadFromArray` that throws returns the receiver
unchanged with no callback invocation: the two containment checks and the
first-row read all happen before the write loop. -/
theorem loadFromArray_err_shape (df : DataFrame V) (data : List (List (Option V)))
    (origin : Coord) :
    (df.loadFromArray data origin).err = none ∨
    df.loadFromArray data origin = ⟨df, [], (df.loadFromArray data origin).err⟩ := by
  unfold loadFromArray
  split
  · right; rfl
  · split
    · right; rfl
    · dsimp only
      split
      · right; rfl
      · left; rfl

end DataFrame

/-- C2: `loadFromArray` is all-or-nothing.  Whenever it fails — origin
not contained in the DataFrame's bounds, or the computed bounding Frame
of the incoming data not contained (or the degenerate empty-data read) —
it throws before performing any write, so the resulting state, store
included, is exactly what it was before the call, and no callback was
invoked. -/
theorem loadFromArray_all_or_nothing {V : Type} (df : DataFrame V)
    (data : List (List (Option V))) (origin : Coord) (e : String)
    (h : (df.loadFromArray data origin).err = some e) :
    (df.loadFromArray data origin).df = df ∧
    (df.loadFromArray data origin).notes = [] := by
  rcases DataFrame.loadFromArray_err_shape df data origin with h0 | h0
  · rw [h] at h0; cases h0
  · rw [h0]
    exact ⟨rfl, rfl⟩

theorem loadFromArray_all_or_nothing_witness :
    (completeness3x3DF.loadFromArray [[some 7, some 8]] (2, 2)).df =
      completeness3x3DF ∧
    (completeness3x3DF.loadFromArray [[some 7, some 8]] (2, 2)).notes = [] :=
  loadFromArray_all_or_nothing completeness3x3DF [[some 7, some 8]] (2, 2)
    "Incoming data runs outside bounds of current DataFrame" rfl

/-- C8: on a successful `loadFromArray`, every cell is written through
the non-notifying form of `putAt` (the write loops invoke no callback),
and the callback, when registered, is invoked exactly once, after all
writes, with the computed bounding Frame of the loaded region. -/
theorem loadFromArray_single_callback {V : Type} (df : DataFrame V)
    (row0 : List (Option V)) (rest : List (List (Option V))) (origin : Coord)
    (h : (df.loadFromArray (row0 :: rest) origin).err = none) :
    (df.loadFromArray (row0 :: rest) origin).notes =
      (if df.hasCallback then
        [Note.fr ⟨⟨origin.1, origin.2⟩,
          ⟨(row0.length : Int) - 1 + origin.1,
           ((row0 :: rest).length : Int) - 1 + origin.2⟩⟩]
       else []) ∧
    (df.loadRows (row0 :: rest) origin.1 origin.2).2 = [] := by
  refine ⟨?_, DataFrame.loadRows_notes df _ _ _⟩
  unfold DataFrame.loadFromArray at h ⊢
  cases hc : df.frame.containsCoord origin with
  | false => rw [hc] at h; simp at h
  | true =>
      rw [hc] at h
      simp only [Bool.not_true, Bool.false_eq_true, if_false] at h ⊢
      cases hf : df.frame.containsFrame ⟨⟨origin.1, origin.2⟩,
        ⟨(row0.length : Int) - 1 + origin.1,
         ((row0 :: rest).length : Int) - 1 + origin.2⟩⟩ with
      | false => rw [hf] at h; simp at h
      | true =>
          simp only [hf, Bool.not_true, Bool.false_eq_true, if_false,
            DataFrame.loadRows_notes, DataFrame.loadRows_hasCallback,
            List.nil_append]

theorem loadFromArray_single_callback_witness :
    (sampleDF.loadFromArray [[some 1, some 2], [some 3, some 4]] (1, 1)).notes =
      [Note.fr ⟨⟨1, 1⟩, ⟨2, 2⟩⟩] ∧
    (sampleDF.loadRows [[some 1, some 2], [some 3, some 4]] 1 1).2 = [] := by
  have h := loadFromArray_single_callback sampleDF [some 1, some 2]
    [[some 3, some 4]] (1, 1) rfl
  exact ⟨by rw [h.1]; decide, h.2⟩

/-! ## The round trip: loadFromArray then getDataArrayForFrame -/

/-- The store after the inner write loop, seen through lookup: inside the
written span of row `y` the row's values (an absent value having deleted
the key), elsewhere the old store. -/
theorem loadRow_lookup {V : Type} (df : DataFrame V) (row : List (Option V))
    (x y a b : Int) :
    storeLookup ((df.loadRow row x y).1.store) (a, b) =
      if b = y ∧ x ≤ a ∧ a < x + row.length then row.getD (a - x).toNat none
      else storeLookup df.store (a, b) := by
  induction row generalizing df x with
  | nil =>
      simp only [DataFrame.loadRow, List.length_nil]
      rw [if_neg (by omega)]
  | cons v rest ih =>
      simp only [DataFrame.loadRow]
      rw [ih, DataFrame.storeLookup_putAt]
      simp only [Location.key, Prod.mk.injEq, List.length_cons]
      split_ifs with h1 h2 h3 h4 h5 <;> try omega
      · have hidx : (a - x).toNat = (a - (x + 1)).toNat + 1 := by omega
        rw [hidx, List.getD_cons_succ]
      · obtain ⟨hax, _⟩ := h3
        rw [hax]
        simp
      · rfl

/-- The store after the outer write loop, seen through lookup: inside the
written block the corresponding data value, elsewhere the old store. -/
theorem loadRows_lookup {V : Type} (df : DataFrame V) (rows : List (List (Option V)))
    (x y a b : Int) :
    storeLookup ((df.loadRows rows x y).1.store) (a, b) =
      if y ≤ b ∧ b < y + rows.length ∧
          x ≤ a ∧ a < x + ((rows.getD (b - y).toNat []).length) then
        (rows.getD (b - y).toNat []).getD (a - x).toNat none
      else storeLookup df.store (a, b) := by
  induction rows generalizing df y with
  | nil =>
      simp only [DataFrame.loadRows, List.length_nil]
      rw [if_neg (by omega)]
  | cons row rest ih =>
      simp only [DataFrame.loadRows]
      rw [ih, loadRow_lookup]
      by_cases hb : b = y
      · have hidx : (b - y).toNat = 0 := by omega
        rw [hidx]
        simp only [List.getD_cons_zero, List.length_cons]
        split_ifs with h1 h2 h3 <;> try omega
        · rfl
        · rfl
      · by_cases hb2 : y + 1 ≤ b ∧ b < y + 1 + rest.length
        · have hidx : (b - y).toNat = (b - (y + 1)).toNat + 1 := by omega
          rw [hidx]
          simp only [List.getD_cons_succ, List.length_cons]
          split_ifs with h1 h2 h3 <;> try omega
          · rfl
          · rfl
        · simp only [List.length_cons]
          rw [if_neg (fun hc => hb2 ⟨hc.1, hc.2.1⟩), if_neg (fun hc => hb hc.1),
            if_neg (by omega)]

/-- A row of in-bounds coordinates is read back without error, each cell
through the store lookup. -/
theorem mapM_getAt_row {V : Type} (df : DataFrame V) (row : List Coord)
    (h : ∀ c ∈ row, df.frame.containsCoord c = true) :
    row.mapM (fun c => df.getAt (.coord c.1 c.2)) =
      .ok (row.map (fun c => storeLookup df.store c)) := by
  induction row with
  | nil => rfl
  | cons c rest ih =>
      have hc : df.frame.containsLocation (.coord c.1 c.2) = true :=
        h c (List.mem_cons_self c rest)
      rw [List.mapM_cons, DataFrame.getAt_eq_lookup _ _ hc,
        ih (fun d hd => h d (List.mem_cons_of_mem c hd))]
      rfl

/-- Rows of in-bounds coordinates are read back without error. -/
theorem mapM_getAt_rows {V : Type} (df : DataFrame V) (rows : List (List Coord))
    (h : ∀ row ∈ rows, ∀ c ∈ row, df.frame.containsCoord c = true) :
    rows.mapM (fun row => row.mapM (fun c => df.getAt (.coord c.1 c.2))) =
      .ok (rows.map (fun row => row.map (fun c => storeLookup df.store c))) := by
  induction rows with
  | nil => rfl
  | cons row rest ih =>
      rw [List.mapM_cons, mapM_getAt_row df row (h row (List.mem_cons_self row rest)),
        ih (fun r hr => h r (List.mem_cons_of_mem row hr))]
      rfl

/-- On a contained frame, `getDataArrayForFrame` succeeds and returns the
row-grouped store lookups in the frame's enumeration order. -/
theorem getDataArrayForFrame_ok {V : Type} (df : DataFrame V) (f : Frame)
    (h : df.frame.containsFrame f = true) :
    df.getDataArrayForFrame f =
      .ok (f.coordRows.map (fun row => row.map (fun c => storeLookup df.store c))) := by
  unfold DataFrame.getDataArrayForFrame
  rw [h]
  simp only [Bool.not_true, Bool.false_eq_true, if_false]
  exact mapM_getAt_rows df f.coordRows (fun row hr c hc =>
    Frame.containsPoint_of_containsFrame h (Frame.containsCoord_of_mem_coordRows hr hc))

/-- Reading every index of a list back with `getD` reproduces the
list. -/
theorem map_range_getD {α : Type} (l : List α) (d : α) :
    (List.range l.length).map (fun i => l.getD i d) = l := by
  induction l with
  | nil => rfl
  | cons a t ih =>
      rw [List.length_cons, List.range_succ_eq_map, List.map_cons, List.map_map]
      have h2 : ((fun i => (a :: t).getD i d) ∘ Nat.succ) = (fun i => t.getD i d) :=
        funext (fun i => List.getD_cons_succ)
      rw [h2, ih]
      rfl

/-- The row enumeration of the frame anchored at (x0, y0) with the given
row and column counts. -/
theorem anchored_coordRows (x0 y0 : Int) (rows cols : Nat) :
    (Frame.mk ⟨x0, y0⟩ ⟨(cols : Int) - 1 + x0, (rows : Int) - 1 + y0⟩).coordRows =
      (List.range rows).map (fun j : Nat =>
        (List.range cols).map (fun i : Nat => (x0 + (i : Int), y0 + (j : Int)))) := by
  unfold Frame.coordRows Frame.rowCoords
  rw [show (Frame.mk ⟨x0, y0⟩ ⟨(cols : Int) - 1 + x0, (rows : Int) - 1 + y0⟩).height.toNat
      = rows by unfold Frame.height; dsimp only; omega,
    show (Frame.mk ⟨x0, y0⟩ ⟨(cols : Int) - 1 + x0, (rows : Int) - 1 + y0⟩).width.toNat
      = cols by unfold Frame.width; dsimp only; omega]

/-- C1: the round trip.  For every rectangular array `data` of
`data.length` rows by `cols` columns and every anchor (x0, y0) such that
the anchored region's bounding Frame lies within the DataFrame's bounds,
`loadFromArray data (x0, y0)` succeeds and `getDataArrayForFrame` on the
Frame covering exactly that region returns `data` itself, rows (outer, y)
and columns (inner, x) in the same order. -/
theorem loadFromArray_roundtrip {V : Type} (df : DataFrame V)
    (data : List (List (Option V))) (x0 y0 : Int) (cols : Nat)
    (hcols : ∀ r ∈ data, r.length = cols)
    (hr : 1 ≤ data.length)
    (hcf : df.frame.containsFrame
      ⟨⟨x0, y0⟩, ⟨(cols : Int) - 1 + x0, (data.length : Int) - 1 + y0⟩⟩ = true) :
    (df.loadFromArray data (x0, y0)).err = none ∧
    ((df.loadFromArray data (x0, y0)).df).getDataArrayForFrame
      ⟨⟨x0, y0⟩, ⟨(cols : Int) - 1 + x0, (data.length : Int) - 1 + y0⟩⟩ = .ok data := by
  cases data with
  | nil => simp at hr
  | cons row0 rest =>
      have hrow0 : row0.length = cols := hcols row0 (List.mem_cons_self row0 rest)
      have horig : df.frame.containsCoord (x0, y0) = true := by
        rw [Frame.containsFrame_iff] at hcf
        exact hcf.1
      have hCF : df.frame.containsFrame
          ⟨⟨x0, y0⟩, ⟨(row0.length : Int) - 1 + x0,
            ((row0 :: rest).length : Int) - 1 + y0⟩⟩ = true := by
        rw [show ((row0.length : Int)) = (cols : Int) from by rw [hrow0]]
        exact hcf
      have hload : df.loadFromArray (row0 :: rest) (x0, y0) =
          ⟨(df.loadRows (row0 :: rest) x0 y0).1,
           (df.loadRows (row0 :: rest) x0 y0).2 ++
             (if (df.loadRows (row0 :: rest) x0 y0).1.hasCallback then
               [Note.fr ⟨⟨x0, y0⟩, ⟨(row0.length : Int) - 1 + x0,
                 ((row0 :: rest).length : Int) - 1 + y0⟩⟩] else []),
           none⟩ := by
        unfold DataFrame.loadFromArray
        rw [horig]
        simp only [Bool.not_true, Bool.false_eq_true, if_false]
        rw [hCF]
        simp only [Bool.not_true, Bool.false_eq_true, if_false]
      rw [hload]
      refine ⟨rfl, ?_⟩
      have hfr : ((df.loadRows (row0 :: rest) x0 y0).1).frame.containsFrame
          ⟨⟨x0, y0⟩, ⟨(cols : Int) - 1 + x0,
            ((row0 :: rest).length : Int) - 1 + y0⟩⟩ = true := by
        rw [DataFrame.loadRows_frame]
        exact hcf
      rw [getDataArrayForFrame_ok _ _ hfr]
      refine congrArg Except.ok ?_
      rw [anchored_coordRows x0 y0 (row0 :: rest).length cols]
      apply List.ext_getElem
      · simp
      · intro j hj1 hj2
        simp only [List.getElem_map, List.getElem_range]
        apply List.ext_getElem
        · simp only [List.length_map, List.length_range]
          exact (hcols _ (List.getElem_mem hj2)).symm
        · intro i hi1 hi2
          simp only [List.getElem_map, List.getElem_range]
          rw [loadRows_lookup]
          have e1 : (y0 + (j : Int) - y0).toNat = j := by omega
          rw [e1]
          rw [List.getD_eq_getElem (row0 :: rest) [] hj2]
          have hlenj : ((row0 :: rest)[j]).length = cols :=
            hcols _ (List.getElem_mem hj2)
          rw [if_pos ⟨by omega, by omega, by omega, by rw [hlenj]; omega⟩]
          have e2 : (x0 + (i : Int) - x0).toNat = i := by omega
          rw [e2, List.getD_eq_getElem _ _ hi2]

theorem loadFromArray_roundtrip_witness :
    (sampleDF.loadFromArray [[some 1, some 2], [some 3, some 4]] (1, 2)).err = none ∧
    ((sampleDF.loadFromArray [[some 1, some 2], [some 3, some 4]] (1, 2)).df).getDataArrayForFrame
      ⟨⟨1, 2⟩, ⟨2, 3⟩⟩ = .ok [[some 1, some 2], [some 3, some 4]] :=
  loadFromArray_roundtrip sampleDF [[some 1, some 2], [some 3, some 4]] 1 2 2
    (by decide) (by decide) (by decide)
